import Mathlib

/-!
# Shallow embedding of nobxta/SessionChecker frontend utilities

This file embeds, in Lean 4, the parts of the SessionChecker frontend that the
verified claims are about:

* `src/Frontend/src/utils/websocketManager.js` — the reconnect-with-backoff
  WebSocket wrapper (`WebSocketManager`);
* `src/Frontend/src/utils/requestController.js` — the request cancellation /
  timeout tracker (`RequestController`);
* the file validation utility (`fileValidation`): `validateFileType`,
  `validateFileSize`, `validateSessionFile`, `validateImageFile`,
  `validateMultipleFiles`, `validateFileUpload`.

JavaScript `Map` objects are embedded as association lists with `mapGet`,
`mapSet` and `mapDelete` mirroring `Map.get`, `Map.set` and `Map.delete`.
Side effects that the claims mention (calling `AbortController.abort()`,
`clearTimeout`) are recorded in explicit logs in the embedded state.
-/

set_option autoImplicit false

namespace SessionChecker

/-! ## JavaScript `Map` as an association list -/

/-- `Map.get k`: the value stored under `k`, if any (first matching entry). -/
def mapGet {α : Type} (m : List (String × α)) (k : String) : Option α :=
  (m.find? (fun p => p.1 == k)).map Prod.snd

/-- `Map.set k v`: replace the value under `k` when the key is present
(keeping the entry's position, as JS `Map.set` does), otherwise append a new
entry at the end (JS `Map` insertion order). -/
def mapSet {α : Type} (m : List (String × α)) (k : String) (v : α) :
    List (String × α) :=
  if (m.find? (fun p => p.1 == k)).isSome then
    m.map (fun p => if p.1 == k then (k, v) else p)
  else
    m ++ [(k, v)]

/-- `Map.delete k`: remove every entry stored under `k`. -/
def mapDelete {α : Type} (m : List (String × α)) (k : String) :
    List (String × α) :=
  m.filter (fun p => p.1 != k)

/-- The keys of an embedded map, in insertion order. -/
def mapKeys {α : Type} (m : List (String × α)) : List String :=
  m.map Prod.fst

theorem mapGet_cons {α : Type} (p : String × α) (rest : List (String × α))
    (k : String) :
    mapGet (p :: rest) k = if p.1 = k then some p.2 else mapGet rest k := by
  by_cases hp : p.1 = k
  · rw [if_pos hp, mapGet, List.find?_cons_of_pos _ (by simp [hp])]
    rfl
  · rw [if_neg hp, mapGet, List.find?_cons_of_neg _ (by simp [hp])]
    rfl

theorem mapGet_isSome_iff_find? {α : Type} (m : List (String × α))
    (k : String) :
    (mapGet m k).isSome = (m.find? (fun p => p.1 == k)).isSome := by
  unfold mapGet
  cases m.find? (fun p => p.1 == k) <;> rfl

theorem mapGet_replace_self {α : Type} (m : List (String × α)) (k : String)
    (v : α) :
    mapGet (m.map (fun p => if p.1 == k then (k, v) else p)) k
      = (mapGet m k).map (fun _ => v) := by
  induction m with
  | nil => rfl
  | cons p rest ih =>
    by_cases hp : p.1 = k
    · simp [mapGet_cons, hp]
    · simp only [List.map_cons, if_neg (show ¬(p.1 == k) = true by simp [hp])]
      rw [mapGet_cons, if_neg hp, mapGet_cons, if_neg hp]
      exact ih

theorem mapGet_replace_ne {α : Type} (m : List (String × α)) (k k' : String)
    (v : α) (h : k' ≠ k) :
    mapGet (m.map (fun p => if p.1 == k then (k, v) else p)) k'
      = mapGet m k' := by
  induction m with
  | nil => rfl
  | cons p rest ih =>
    by_cases hp : p.1 = k
    · simp only [List.map_cons, if_pos (show (p.1 == k) = true by simp [hp])]
      rw [mapGet_cons, mapGet_cons, if_neg (by simpa using (Ne.symm h)),
        if_neg (by rw [hp]; exact Ne.symm h)]
      exact ih
    · simp only [List.map_cons, if_neg (show ¬(p.1 == k) = true by simp [hp])]
      rw [mapGet_cons, mapGet_cons]
      by_cases hpk' : p.1 = k'
      · rw [if_pos hpk', if_pos hpk']
      · rw [if_neg hpk', if_neg hpk']
        exact ih

theorem mapGet_append_single_self {α : Type} (m : List (String × α))
    (k : String) (v : α) (h : mapGet m k = none) :
    mapGet (m ++ [(k, v)]) k = some v := by
  induction m with
  | nil => simp [mapGet_cons]
  | cons p rest ih =>
    rw [mapGet_cons] at h
    by_cases hp : p.1 = k
    · rw [if_pos hp] at h; simp at h
    · rw [if_neg hp] at h
      rw [List.cons_append, mapGet_cons, if_neg hp]
      exact ih h

theorem mapGet_append_single_ne {α : Type} (m : List (String × α))
    (k k' : String) (v : α) (h : k' ≠ k) :
    mapGet (m ++ [(k, v)]) k' = mapGet m k' := by
  induction m with
  | nil => simp [mapGet_cons, Ne.symm h, mapGet]
  | cons p rest ih =>
    rw [List.cons_append, mapGet_cons, mapGet_cons]
    by_cases hpk' : p.1 = k'
    · rw [if_pos hpk', if_pos hpk']
    · rw [if_neg hpk', if_neg hpk']
      exact ih

theorem mapGet_none_of_find?_none {α : Type} (m : List (String × α))
    (k : String) (h : ¬(m.find? (fun p => p.1 == k)).isSome = true) :
    mapGet m k = none := by
  cases hm : mapGet m k with
  | none => rfl
  | some w =>
    exfalso
    apply h
    rw [← mapGet_isSome_iff_find?, hm]
    rfl

theorem mapGet_mapSet_self {α : Type} (m : List (String × α)) (k : String)
    (v : α) : mapGet (mapSet m k v) k = some v := by
  unfold mapSet
  by_cases hf : (m.find? (fun p => p.1 == k)).isSome
  · rw [if_pos hf, mapGet_replace_self]
    have hs : (mapGet m k).isSome := by rw [mapGet_isSome_iff_find?]; exact hf
    obtain ⟨w, hw⟩ := Option.isSome_iff_exists.mp hs
    rw [hw]
    rfl
  · rw [if_neg hf]
    exact mapGet_append_single_self m k v (mapGet_none_of_find?_none m k hf)

theorem mapGet_mapSet_ne {α : Type} (m : List (String × α)) (k k' : String)
    (v : α) (h : k' ≠ k) : mapGet (mapSet m k v) k' = mapGet m k' := by
  unfold mapSet
  by_cases hf : (m.find? (fun p => p.1 == k)).isSome
  · rw [if_pos hf]
    exact mapGet_replace_ne m k k' v h
  · rw [if_neg hf]
    exact mapGet_append_single_ne m k k' v h

theorem mapGet_mapDelete_self {α : Type} (m : List (String × α))
    (k : String) : mapGet (mapDelete m k) k = none := by
  unfold mapDelete
  induction m with
  | nil => rfl
  | cons p rest ih =>
    rw [List.filter_cons]
    by_cases hp : p.1 = k
    · rw [if_neg (by simp [hp])]
      exact ih
    · rw [if_pos (by simp [hp]), mapGet_cons, if_neg hp]
      exact ih

theorem mapGet_mapDelete_ne {α : Type} (m : List (String × α))
    (k k' : String) (h : k' ≠ k) :
    mapGet (mapDelete m k) k' = mapGet m k' := by
  unfold mapDelete
  induction m with
  | nil => rfl
  | cons p rest ih =>
    rw [List.filter_cons, mapGet_cons]
    by_cases hp : p.1 = k
    · rw [if_neg (by simp [hp]), if_neg (by rw [hp]; exact Ne.symm h)]
      exact ih
    · rw [if_pos (by simp [hp]), mapGet_cons]
      by_cases hpk' : p.1 = k'
      · rw [if_pos hpk', if_pos hpk']
      · rw [if_neg hpk', if_neg hpk']
        exact ih

theorem not_mem_mapKeys_of_mapGet_none {α : Type} (m : List (String × α))
    (k : String) : mapGet m k = none → k ∉ mapKeys m := by
  induction m with
  | nil => intro _; simp [mapKeys]
  | cons p rest ih =>
    intro h
    rw [mapGet_cons] at h
    by_cases hp : p.1 = k
    · rw [if_pos hp] at h; exact Option.noConfusion h
    · rw [if_neg hp] at h
      simp only [mapKeys, List.map_cons, List.mem_cons]
      intro hk
      rcases hk with hk1 | hk2
      · exact hp hk1.symm
      · exact ih h hk2

theorem mapKeys_mapSet {α : Type} (m : List (String × α)) (k : String)
    (v : α) :
    mapKeys (mapSet m k v) = mapKeys m ∨
      (mapKeys (mapSet m k v) = mapKeys m ++ [k] ∧ k ∉ mapKeys m) := by
  unfold mapSet
  by_cases hf : (m.find? (fun p => p.1 == k)).isSome
  · left
    rw [if_pos hf]
    unfold mapKeys
    rw [List.map_map]
    apply List.map_congr_left
    intro p _
    by_cases hp : p.1 = k
    · simp [hp]
    · simp [hp]
  · right
    rw [if_neg hf]
    constructor
    · simp [mapKeys]
    · exact not_mem_mapKeys_of_mapGet_none m k
        (mapGet_none_of_find?_none m k hf)

theorem nodup_mapKeys_mapSet {α : Type} (m : List (String × α)) (k : String)
    (v : α) (h : (mapKeys m).Nodup) : (mapKeys (mapSet m k v)).Nodup := by
  rcases mapKeys_mapSet m k v with heq | ⟨heq, hnot⟩
  · rw [heq]; exact h
  · rw [heq]
    simp only [List.nodup_append, List.nodup_singleton, List.disjoint_singleton]
    exact ⟨h, trivial, hnot⟩

theorem nodup_mapKeys_mapDelete {α : Type} (m : List (String × α))
    (k : String) (h : (mapKeys m).Nodup) : (mapKeys (mapDelete m k)).Nodup := by
  unfold mapDelete mapKeys
  unfold mapKeys at h
  induction m with
  | nil => simp
  | cons p rest ih =>
    simp only [List.map_cons, List.nodup_cons] at h
    rw [List.filter_cons]
    by_cases hp : p.1 != k
    · rw [if_pos hp]
      simp only [List.map_cons, List.nodup_cons]
      refine ⟨fun hmem => ?_, ih h.2⟩
      obtain ⟨q, hq, hqk⟩ := List.mem_map.mp hmem
      exact h.1 (List.mem_map.mpr ⟨q, (List.mem_filter.mp hq).1, hqk⟩)
    · rw [if_neg hp]
      exact ih h.2

/-! ## WebSocketManager (`src/Frontend/src/utils/websocketManager.js`) -/

/-- The fields of `WebSocketManager` that the connection / reconnection logic
reads and writes.  `wsPresent` models whether `this.ws` is non-null. -/
structure WSState where
  reconnectAttempts : Nat
  maxReconnectAttempts : Nat
  reconnectDelay : Nat
  connectionStatus : String
  wsPresent : Bool
deriving Repr, DecidableEq

/-- The `WebSocketManager` constructor: `reconnectAttempts = 0`,
`maxReconnectAttempts = 5`, `reconnectDelay = 1000`,
`connectionStatus = 'disconnected'`, `ws = null`. -/
def WSState.init : WSState :=
  { reconnectAttempts := 0
    maxReconnectAttempts := 5
    reconnectDelay := 1000
    connectionStatus := "disconnected"
    wsPresent := false }

/-- `scheduleReconnect()`: increments `this.reconnectAttempts`, then computes
`delay = this.reconnectDelay * Math.pow(2, this.reconnectAttempts - 1)` and
passes it to `setTimeout`.  Returns the updated state and that delay. -/
def scheduleReconnect (s : WSState) : WSState × Nat :=
  let s' := { s with reconnectAttempts := s.reconnectAttempts + 1 }
  (s', s'.reconnectDelay * 2 ^ (s'.reconnectAttempts - 1))

/-- The delays (in ms) of the next `n` consecutive reconnection attempts
scheduled from state `s`, i.e. iterating `scheduleReconnect`. -/
def reconnectDelays (s : WSState) : Nat → List Nat
  | 0 => []
  | n + 1 =>
    let r := scheduleReconnect s
    r.2 :: reconnectDelays r.1 n

/-- The `onclose` handler: sets status `'disconnected'`; when
`event.code !== 1000 && this.reconnectAttempts < this.maxReconnectAttempts`
it calls `scheduleReconnect`.  The returned `Bool` records whether a
reconnection attempt was scheduled. -/
def handleClose (s : WSState) (code : Nat) : WSState × Bool :=
  let s1 := { s with connectionStatus := "disconnected" }
  if code ≠ 1000 ∧ s1.reconnectAttempts < s1.maxReconnectAttempts then
    ((scheduleReconnect s1).1, true)
  else
    (s1, false)

/-- The `onopen` handler: resets `this.reconnectAttempts = 0` and sets status
`'connected'` (the initial `task_id` send does not change these fields). -/
def handleOpen (s : WSState) : WSState :=
  { s with reconnectAttempts := 0, connectionStatus := "connected" }

/-- `connect(taskId, onStatusChange)`: creates the socket and sets status
`'connecting'` (the error branch sets status `'error'` instead; either way
`reconnectAttempts` is untouched). -/
def connect (s : WSState) (creationFails : Bool) : WSState :=
  if creationFails then
    { s with connectionStatus := "error" }
  else
    { s with wsPresent := true, connectionStatus := "connecting" }

/-- `disconnect()`: when a socket exists it is closed with
`this.ws.close(1000, 'Manual disconnect')` and `this.ws = null`; status
becomes `'disconnected'` (message handlers are also cleared, which is not
part of this state).  Returns the close code passed to `ws.close`, if any. -/
def disconnect (s : WSState) : WSState × Option Nat :=
  if s.wsPresent then
    ({ s with wsPresent := false, connectionStatus := "disconnected" }, some 1000)
  else
    ({ s with connectionStatus := "disconnected" }, none)

/-- The events that drive the manager's connection state. -/
inductive WSEvent where
  | openEv
  | closeEv (code : Nat)
  | connectEv (creationFails : Bool)
  | disconnectEv
  | errorEv
deriving Repr, DecidableEq

/-- One step of the manager's state machine. -/
def wsStep (s : WSState) : WSEvent → WSState
  | .openEv => handleOpen s
  | .closeEv code => (handleClose s code).1
  | .connectEv fails => connect s fails
  | .disconnectEv => (disconnect s).1
  | .errorEv => { s with connectionStatus := "error" }

/-- The manager state after a sequence of events, starting from the
constructor's state. -/
def wsRun (es : List WSEvent) : WSState :=
  es.foldl wsStep WSState.init

/-! ### Message routing (`handleMessage` / `handleDefaultMessage` / `emit`) -/

/-- A parsed JSON payload object: field name to field value (`none` models a
missing field, i.e. `undefined` after destructuring).  A message's `payload`
property is an `Option Payload` at the message level: `none` models a message
whose `payload` is absent (`undefined`, or `null`) — destructuring such a
value with `const \x7b ... \x7d = payload` throws a TypeError. -/
abbrev Payload := List (String × String)

/-- Destructuring `const \x7b f1, ..., fn \x7d = payload` followed by
`emit(event, \x7b f1, ..., fn \x7d)`: the event detail binds each listed
field name to the payload's value for it. -/
def mkDetail (fields : List String) (p : Payload) :
    List (String × Option String) :=
  fields.map (fun f => (f, mapGet p f))

/-- The payload fields destructured and re-emitted by the dedicated handler
for each of the five default message types (`handleProgressUpdate`,
`handleStatusUpdate`, `handleResultUpdate`, `handleErrorUpdate`,
`handleCompleteUpdate`); `none` for any other type (the `default` switch
branch only logs). -/
def fieldsFor : String → Option (List String)
  | "progress" => some ["current", "total", "percentage", "operation", "session"]
  | "status" => some ["status", "message", "session", "details"]
  | "result" => some ["session", "result", "success", "message"]
  | "error" => some ["session", "error", "errorType", "details"]
  | "complete" => some ["summary", "totalProcessed", "totalSuccess", "totalErrors"]
  | _ => none

/-- What `handleMessage` did with a message: invoked a registered handler
(with the whole message), dispatched a `window` `CustomEvent` via `emit`,
threw a TypeError in the dedicated default handler (destructuring an absent
`payload`; the exception propagates to `onmessage`'s try/catch, which only
logs — no event is dispatched), or nothing observable. -/
inductive HandleResult where
  | handler (h : Nat) (msgType : Option String) (payload : Option Payload)
  | event (name : String) (detail : List (String × Option String))
  | thrown
  | nothing
deriving Repr, DecidableEq

/-- `handleDefaultMessage(data)`: switch on `type`; each of the five known
types runs its dedicated handler, which destructures `payload` and emits a
`CustomEvent` named `websocket:<type>` (via `emit`) — when the message has
no `payload` object the destructuring throws (`.thrown`, caught by
`onmessage`) and nothing is emitted; every other type only logs. -/
def handleDefaultMessage (msgType : Option String) (p : Option Payload) :
    HandleResult :=
  match msgType with
  | some t =>
    match fieldsFor t with
    | some fl =>
      match p with
      | some po => .event ("websocket:" ++ t) (mkDetail fl po)
      | none => .thrown
    | none => .nothing
  | none => .nothing

/-- `handleMessage(data)`: when `type && this.messageHandlers.has(type)` the
registered handler is invoked with the whole message; otherwise
`handleDefaultMessage`.  Note the JS truthiness test: an absent type or the
empty string `''` is falsy.  Handlers are identified by a `Nat` id (the map
is populated by `on(type, handler)` = `mapSet`). -/
def handleMessage (handlers : List (String × Nat)) (msgType : Option String)
    (p : Option Payload) : HandleResult :=
  match msgType with
  | some t =>
    if t ≠ "" then
      match mapGet handlers t with
      | some h => .handler h (some t) p
      | none => handleDefaultMessage (some t) p
    else
      handleDefaultMessage (some t) p
  | none => handleDefaultMessage none p

/-! ## RequestController (`src/Frontend/src/utils/requestController.js`) -/

/-- An `AbortController` instance: identified by its allocation id, with its
`signal.aborted` flag. -/
structure Controller where
  ctrlId : Nat
  aborted : Bool
deriving Repr, DecidableEq

/-- A `setTimeout` registration stored in `this.requestTimeouts`: the timer id
returned by `setTimeout` together with the scheduled callback's data (the
delay it was registered with and whether an `onTimeout` callback was
supplied). -/
structure TimeoutEntry where
  timeoutId : Nat
  delay : Nat
  hasOnTimeout : Bool
deriving Repr, DecidableEq

/-- The `RequestController` state: the three maps of the constructor, plus
allocation counters for fresh `AbortController`s / `setTimeout` ids and logs
of the side effects `abort()` and `clearTimeout` (recording the ids they were
called on). -/
structure RCState where
  abortControllers : List (String × Controller)
  activeRequests : List (String × Nat)
  requestTimeouts : List (String × TimeoutEntry)
  nextCtrlId : Nat
  nextTimerId : Nat
  abortedLog : List Nat
  clearedLog : List Nat
deriving Repr, DecidableEq

/-- The `RequestController` constructor: three empty maps. -/
def RCState.init : RCState :=
  { abortControllers := []
    activeRequests := []
    requestTimeouts := []
    nextCtrlId := 0
    nextTimerId := 0
    abortedLog := []
    clearedLog := [] }

/-- `clearRequestTimeout(requestId)`: look up the stored timer id; when it is
truthy (a `setTimeout` id, hence a nonzero number) call `clearTimeout` on it
and delete the map entry. -/
def clearRequestTimeout (st : RCState) (rid : String) : RCState :=
  match mapGet st.requestTimeouts rid with
  | some t =>
    if t.timeoutId ≠ 0 then
      { st with clearedLog := st.clearedLog ++ [t.timeoutId]
                requestTimeouts := mapDelete st.requestTimeouts rid }
    else
      st
  | none => st

/-- `cancelRequest(requestId)`: when a controller is registered, call
`controller.abort()`, delete the entry from `abortControllers` and
`activeRequests`, clear the request timeout and return `true`; otherwise
return `false`. -/
def cancelRequest (st : RCState) (rid : String) : RCState × Bool :=
  match mapGet st.abortControllers rid with
  | some c =>
    let st1 := { st with abortedLog := st.abortedLog ++ [c.ctrlId]
                         abortControllers := mapDelete st.abortControllers rid
                         activeRequests := mapDelete st.activeRequests rid }
    (clearRequestTimeout st1 rid, true)
  | none => (st, false)

/-- `createAbortController(requestId)`: first `cancelRequest(requestId)`,
then allocate a fresh `AbortController` and store it under `requestId`. -/
def createAbortController (st : RCState) (rid : String) : RCState × Controller :=
  let st1 := (cancelRequest st rid).1
  let c : Controller := { ctrlId := st1.nextCtrlId, aborted := false }
  ({ st1 with abortControllers := mapSet st1.abortControllers rid c
              nextCtrlId := st1.nextCtrlId + 1 }, c)

/-- `cancelAllRequests()`: abort every registered controller, clear the
`abortControllers` and `activeRequests` maps, and clear all timeouts. -/
def cancelAllRequests (st : RCState) : RCState :=
  { st with abortedLog := st.abortedLog ++ st.abortControllers.map (·.2.ctrlId)
            abortControllers := []
            activeRequests := []
            clearedLog := st.clearedLog ++ st.requestTimeouts.map (·.2.timeoutId)
            requestTimeouts := [] }

/-- `setRequestTimeout(requestId, timeoutMs, onTimeout)`: clear any previous
timeout for the request, then register a fresh `setTimeout` (browser timer
ids are positive, modelled by `nextTimerId + 1`) whose callback will run
`fireTimeout`. -/
def setRequestTimeout (st : RCState) (rid : String) (timeoutMs : Nat)
    (hasOnTimeout : Bool) : RCState :=
  let st1 := clearRequestTimeout st rid
  let t : TimeoutEntry :=
    { timeoutId := st1.nextTimerId + 1, delay := timeoutMs
      hasOnTimeout := hasOnTimeout }
  { st1 with requestTimeouts := mapSet st1.requestTimeouts rid t
             nextTimerId := st1.nextTimerId + 1 }

/-- The callback `setRequestTimeout` passes to `setTimeout`: it runs
`this.cancelRequest(requestId)` and then, when an `onTimeout` callback was
supplied, invokes it.  Returns the new state and whether `onTimeout` was
invoked. -/
def fireTimeout (st : RCState) (rid : String) (hasOnTimeout : Bool) :
    RCState × Bool :=
  ((cancelRequest st rid).1, hasOnTimeout)

/-- `markRequestActive(requestId, requestInfo)`: store an info record under
`requestId` (its contents are irrelevant to the claims; a `Nat` tag stands in
for the `\x7b startTime, ...requestInfo \x7d` object). -/
def markRequestActive (st : RCState) (rid : String) (info : Nat) : RCState :=
  { st with activeRequests := mapSet st.activeRequests rid info }

/-- `markRequestCompleted(requestId)`: delete the request from
`activeRequests` and `abortControllers` (without aborting) and clear its
timeout. -/
def markRequestCompleted (st : RCState) (rid : String) : RCState :=
  clearRequestTimeout
    { st with activeRequests := mapDelete st.activeRequests rid
              abortControllers := mapDelete st.abortControllers rid } rid

/-- The `options` argument of `createCancellableRequest`: `timeout = none`
models an options object without a `timeout` property (so the destructuring
default `30000` applies); the callbacks are tracked by presence. -/
structure CCROptions where
  timeout : Option Nat
  hasOnTimeout : Bool
  hasOnCancel : Bool
deriving Repr, DecidableEq

/-- The destructured `timeout` value of `createCancellableRequest`:
`const \x7b timeout = 30000, ... \x7d = options`. -/
def ccrTimeout (opts : CCROptions) : Nat :=
  opts.timeout.getD 30000

/-- The synchronous prefix of `createCancellableRequest(requestId, apiCall,
options)` (everything before `await apiCall`): create the abort controller,
register the timeout when `timeout > 0`, and mark the request active.
Returns the state and the controller handed to `apiCall`. -/
def createCancellableRequestSetup (st : RCState) (rid : String)
    (opts : CCROptions) : RCState × Controller :=
  let t := ccrTimeout opts
  let r := createAbortController st rid
  let st2 := if t > 0 then setRequestTimeout r.1 rid t opts.hasOnTimeout else r.1
  (markRequestActive st2 rid 0, r.2)

/-- `cleanup()`: `cancelAllRequests` followed by `clearAllTimeouts` (the
second is a no-op on the already-empty timeout map). -/
def cleanup (st : RCState) : RCState :=
  cancelAllRequests st

/-! ## File validation utility (`fileValidation`, `src/unnamed/part_000`) -/

/-- A browser `File` as far as the validators read it: its `name` and its
`size` in bytes.  A JS `File` with a missing name is modelled by
`name = ""` (both are falsy in the `!file.name` test). -/
structure JsFile where
  name : String
  size : Nat
deriving Repr, DecidableEq

/-- `FILE_TYPES.SESSION`. -/
def FILE_TYPES_SESSION : String := ".session"

/-- `FILE_TYPES.ZIP`. -/
def FILE_TYPES_ZIP : String := ".zip"

/-- `FILE_TYPES.ALL_IMAGES` (= `FILE_TYPES.IMAGE`). -/
def ALL_IMAGES : List String := [".jpg", ".jpeg", ".png", ".gif", ".bmp", ".webp"]

/-- `FILE_TYPES.ALL_SESSION_FILES`. -/
def ALL_SESSION_FILES : List String := [".session", ".zip"]

/-- `FILE_SIZES.MAX_SESSION_FILE` (5MB). -/
def MAX_SESSION_FILE : Nat := 5 * 1024 * 1024

/-- `FILE_SIZES.MAX_IMAGE_FILE` (10MB). -/
def MAX_IMAGE_FILE : Nat := 10 * 1024 * 1024

/-- `FILE_SIZES.MAX_ZIP_FILE` (50MB). -/
def MAX_ZIP_FILE : Nat := 50 * 1024 * 1024

/-- `FILE_SIZES.MIN_IMAGE_FILE` (1KB). -/
def MIN_IMAGE_FILE : Nat := 1024

/-- JS `String.prototype.toLowerCase` on the ASCII file names involved
(character-wise lowering, length preserving). -/
def toLowerStr (s : String) : String :=
  ⟨s.toList.map Char.toLower⟩

/-- JS `String.prototype.lastIndexOf(c)`: the greatest index holding `c`,
or `-1` when `c` does not occur. -/
def jsLastIndexOf (s : String) (c : Char) : Int :=
  match s.toList.reverse.findIdx? (· == c) with
  | some j => ((s.toList.length - 1 - j : Nat) : Int)
  | none => -1

/-- JS `String.prototype.substring(start)` with a single argument: negative
`start` is clamped to `0`; the suffix from `start` is returned. -/
def jsSubstringFrom (s : String) (start : Int) : String :=
  ⟨s.toList.drop start.toNat⟩

/-- The extension computation used throughout the module:
`file.name.toLowerCase().substring(file.name.lastIndexOf('.'))`.
When the name has no `.`, `lastIndexOf` gives `-1` and `substring` clamps it
to `0`, so the whole lower-cased name is returned. -/
def jsExtension (name : String) : String :=
  jsSubstringFrom (toLowerStr name) (jsLastIndexOf name '.')

/-- A validation result object.  The source returns plain objects whose
fields vary by outcome; absent fields are `none`. -/
structure VResult where
  isValid : Bool
  error : Option String := none
  fileExtension : Option String := none
  fileSize : Option Nat := none
  fileType : Option String := none
deriving Repr, DecidableEq

/-- `(num / den).toFixed(1)` as used for the MB / KB figures in the error
messages.  Every call site divides one of the `FILE_SIZES` constants by its
unit, where `num * 10 / den` is exact, so truncating integer arithmetic
agrees with JS float formatting there. -/
def toFixed1Div (num den : Nat) : String :=
  let t := num * 10 / den
  toString (t / 10) ++ "." ++ toString (t % 10)

/-- `validateFileType(file, allowedTypes)`. -/
def validateFileType (file : Option JsFile) (allowedTypes : List String) :
    VResult :=
  match file with
  | none => { isValid := false, error := some "Invalid file object" }
  | some f =>
    if f.name = "" then
      { isValid := false, error := some "Invalid file object" }
    else
      let fileExtension := jsExtension f.name
      if ¬ allowedTypes.contains fileExtension then
        { isValid := false
          error := some ("File type not allowed. Allowed types: "
            ++ String.intercalate ", " allowedTypes) }
      else
        { isValid := true, fileExtension := some fileExtension }

/-- `validateFileSize(file, maxSize, minSize = 0)`. -/
def validateFileSize (file : Option JsFile) (maxSize : Nat) (minSize : Nat) :
    VResult :=
  match file with
  | none => { isValid := false, error := some "Invalid file object" }
  | some f =>
    if f.size > maxSize then
      { isValid := false
        error := some ("File too large. Maximum size: "
          ++ toFixed1Div maxSize (1024 * 1024) ++ "MB") }
    else if minSize > 0 ∧ f.size < minSize then
      { isValid := false
        error := some ("File too small. Minimum size: "
          ++ toFixed1Div minSize 1024 ++ "KB") }
    else
      { isValid := true, fileSize := some f.size }

/-- `validateSessionFile(file)`: type check against `ALL_SESSION_FILES`,
then size check against `MAX_SESSION_FILE`. -/
def validateSessionFile (file : Option JsFile) : VResult :=
  let typeValidation := validateFileType file ALL_SESSION_FILES
  if ¬ typeValidation.isValid then typeValidation
  else
    let sizeValidation := validateFileSize file MAX_SESSION_FILE 0
    if ¬ sizeValidation.isValid then sizeValidation
    else
      { isValid := true
        fileType := typeValidation.fileExtension
        fileSize := sizeValidation.fileSize }

/-- `validateImageFile(file)`: type check against `ALL_IMAGES`, then size
check against `MAX_IMAGE_FILE` / `MIN_IMAGE_FILE`. -/
def validateImageFile (file : Option JsFile) : VResult :=
  let typeValidation := validateFileType file ALL_IMAGES
  if ¬ typeValidation.isValid then typeValidation
  else
    let sizeValidation := validateFileSize file MAX_IMAGE_FILE MIN_IMAGE_FILE
    if ¬ sizeValidation.isValid then sizeValidation
    else
      { isValid := true
        fileType := typeValidation.fileExtension
        fileSize := sizeValidation.fileSize }

/-- An element of `validateMultipleFiles`' `validFiles`:
`\x7b file, index, ...validation \x7d`. -/
structure ValidEntry (α : Type) where
  file : α
  index : Nat
  result : VResult
deriving Repr, DecidableEq

/-- An element of `validateMultipleFiles`' `invalidFiles`:
`\x7b file, index, error: validation.error \x7d`. -/
structure InvalidEntry (α : Type) where
  file : α
  index : Nat
  error : Option String
deriving Repr, DecidableEq

/-- The object returned by `validateMultipleFiles` / `validateFileUpload`. -/
structure MFResult (α : Type) where
  isValid : Bool
  error : Option String := none
  validFiles : List (ValidEntry α) := []
  invalidFiles : List (InvalidEntry α) := []
  totalFiles : Nat := 0
  validCount : Nat := 0
  invalidCount : Nat := 0
deriving Repr, DecidableEq

/-- The `for (let i = 0; ...)` loop of `validateMultipleFiles`, started at
index `i`: pushes each file's entry onto `results` or `errors` in order. -/
def vmfLoop {α : Type} (validator : α → VResult) :
    List α → Nat → List (ValidEntry α) × List (InvalidEntry α)
  | [], _ => ([], [])
  | f :: rest, i =>
    let v := validator f
    let r := vmfLoop validator rest (i + 1)
    if v.isValid then (⟨f, i, v⟩ :: r.1, r.2)
    else (r.1, ⟨f, i, v.error⟩ :: r.2)

/-- `validateMultipleFiles(files, validator)`.  A non-array `files` argument
(`!Array.isArray(files)`) is modelled by `none`. -/
def validateMultipleFiles {α : Type} (files : Option (List α))
    (validator : α → VResult) : MFResult α :=
  match files with
  | none => { isValid := false, error := some "No files provided" }
  | some fs =>
    if fs.length = 0 then
      { isValid := false, error := some "No files provided" }
    else
      let r := vmfLoop validator fs 0
      { isValid := r.2.length == 0
        validFiles := r.1
        invalidFiles := r.2
        totalFiles := fs.length
        validCount := r.1.length
        invalidCount := r.2.length }

/-- JS `a && b` where both operands are object literals: every object is
truthy, so the expression always evaluates to `b`, discarding `a`. -/
def jsAndObj (_a b : VResult) : VResult := b

/-- The `'zip'` validator of `validateFileUpload`:
`validateFileType(file, [FILE_TYPES.ZIP]) && validateFileSize(file,
FILE_SIZES.MAX_ZIP_FILE)`. -/
def zipFileValidator (file : Option JsFile) : VResult :=
  jsAndObj (validateFileType file [FILE_TYPES_ZIP])
    (validateFileSize file MAX_ZIP_FILE 0)

/-- JS `String.prototype.endsWith(suffix)`: whether `suffix` is a suffix of
`s` (character-wise; equivalent to the byte-wise JS test on these names). -/
def jsEndsWith (s suffix : String) : Bool :=
  s.toList.reverse.take suffix.toList.length == suffix.toList.reverse

/-- The `'mixed'` validator of `validateFileUpload` (it dereferences
`file.name`, so it is defined on actual files). -/
def mixedFileValidator (f : JsFile) : VResult :=
  if jsEndsWith f.name FILE_TYPES_SESSION then
    validateSessionFile (some f)
  else if jsEndsWith f.name FILE_TYPES_ZIP then
    jsAndObj (validateFileType (some f) [FILE_TYPES_ZIP])
      (validateFileSize (some f) MAX_ZIP_FILE 0)
  else
    { isValid := false, error := some "Invalid file type" }

/-- `validateFileUpload(files, useCase)`: pick the use case's validator and
run `validateMultipleFiles`; unknown use cases produce an error object. -/
def validateFileUpload (files : Option (List JsFile)) (useCase : String) :
    MFResult JsFile :=
  let validator : Option (JsFile → VResult) :=
    match useCase with
    | "session" => some (fun f => validateSessionFile (some f))
    | "image" => some (fun f => validateImageFile (some f))
    | "zip" => some (fun f => zipFileValidator (some f))
    | "mixed" => some mixedFileValidator
    | _ => none
  match validator with
  | some v => validateMultipleFiles files v
  | none => { isValid := false, error := some ("Unknown use case: " ++ useCase) }

/-! ## Helper lemmas about `RequestController` operations -/

theorem mapGet_some_mem {α : Type} (m : List (String × α)) (k : String)
    (v : α) (h : mapGet m k = some v) : (k, v) ∈ m := by
  induction m with
  | nil => exact Option.noConfusion h
  | cons p rest ih =>
    rw [mapGet_cons] at h
    by_cases hp : p.1 = k
    · rw [if_pos hp] at h
      injection h with h2
      have hpv : p = (k, v) := by
        obtain ⟨a, b⟩ := p
        simp only at hp h2
        rw [hp, h2]
      rw [List.mem_cons]
      left
      rw [hpv]
    · rw [if_neg hp] at h
      exact List.mem_cons_of_mem p (ih h)

theorem clearRequestTimeout_frame (st : RCState) (rid : String) :
    (clearRequestTimeout st rid).abortControllers = st.abortControllers ∧
    (clearRequestTimeout st rid).activeRequests = st.activeRequests ∧
    (clearRequestTimeout st rid).abortedLog = st.abortedLog ∧
    (clearRequestTimeout st rid).nextCtrlId = st.nextCtrlId ∧
    (clearRequestTimeout st rid).nextTimerId = st.nextTimerId := by
  cases hT : mapGet st.requestTimeouts rid with
  | none => simp [clearRequestTimeout, hT]
  | some t =>
    by_cases ht : t.timeoutId ≠ 0
    · simp [clearRequestTimeout, hT, ht]
    · simp [clearRequestTimeout, hT, ht]

theorem clearRequestTimeout_clears (st : RCState) (rid : String)
    (hids : ∀ t, mapGet st.requestTimeouts rid = some t → t.timeoutId ≠ 0) :
    mapGet (clearRequestTimeout st rid).requestTimeouts rid = none ∧
    (∀ t, mapGet st.requestTimeouts rid = some t →
        t.timeoutId ∈ (clearRequestTimeout st rid).clearedLog) := by
  cases hT : mapGet st.requestTimeouts rid with
  | none =>
    refine ⟨?_, ?_⟩
    · simp only [clearRequestTimeout, hT]
    · intro t ht
      exact Option.noConfusion ht
  | some t =>
    have hne := hids t hT
    refine ⟨?_, ?_⟩
    · simp only [clearRequestTimeout, hT]
      rw [if_pos hne]
      exact mapGet_mapDelete_self _ _
    · intro t' ht'
      injection ht' with h
      subst h
      simp only [clearRequestTimeout, hT]
      rw [if_pos hne]
      simp

theorem cancelRequest_abortedLog (st : RCState) (rid : String) (c : Controller)
    (hc : mapGet st.abortControllers rid = some c) :
    (cancelRequest st rid).1.abortedLog = st.abortedLog ++ [c.ctrlId] := by
  simp only [cancelRequest, hc]
  exact (clearRequestTimeout_frame _ _).2.2.1

theorem cancelRequest_found (st : RCState) (rid : String) (c : Controller)
    (hc : mapGet st.abortControllers rid = some c)
    (hids : ∀ t, mapGet st.requestTimeouts rid = some t → t.timeoutId ≠ 0) :
    (cancelRequest st rid).2 = true ∧
    (cancelRequest st rid).1.abortedLog = st.abortedLog ++ [c.ctrlId] ∧
    mapGet (cancelRequest st rid).1.abortControllers rid = none ∧
    mapGet (cancelRequest st rid).1.activeRequests rid = none ∧
    mapGet (cancelRequest st rid).1.requestTimeouts rid = none ∧
    (∀ t, mapGet st.requestTimeouts rid = some t →
        t.timeoutId ∈ (cancelRequest st rid).1.clearedLog) := by
  have hdef : cancelRequest st rid =
      (clearRequestTimeout
        { st with abortedLog := st.abortedLog ++ [c.ctrlId]
                  abortControllers := mapDelete st.abortControllers rid
                  activeRequests := mapDelete st.activeRequests rid } rid, true) := by
    simp only [cancelRequest, hc]
  have hframe := clearRequestTimeout_frame
    { st with abortedLog := st.abortedLog ++ [c.ctrlId]
              abortControllers := mapDelete st.abortControllers rid
              activeRequests := mapDelete st.activeRequests rid } rid
  have hclears := clearRequestTimeout_clears
    { st with abortedLog := st.abortedLog ++ [c.ctrlId]
              abortControllers := mapDelete st.abortControllers rid
              activeRequests := mapDelete st.activeRequests rid } rid hids
  rw [hdef]
  refine ⟨rfl, ?_, ?_, ?_, ?_, ?_⟩
  · rw [hframe.2.2.1]
  · rw [hframe.1]
    exact mapGet_mapDelete_self _ _
  · rw [hframe.2.1]
    exact mapGet_mapDelete_self _ _
  · exact hclears.1
  · exact hclears.2

theorem cancelRequest_not_found (st : RCState) (rid : String)
    (hc : mapGet st.abortControllers rid = none) :
    cancelRequest st rid = (st, false) := by
  simp only [cancelRequest, hc]

theorem setRequestTimeout_get (st : RCState) (rid : String) (ms : Nat)
    (b : Bool) :
    mapGet (setRequestTimeout st rid ms b).requestTimeouts rid
      = some ⟨(clearRequestTimeout st rid).nextTimerId + 1, ms, b⟩ := by
  simp only [setRequestTimeout]
  exact mapGet_mapSet_self _ _ _

theorem setRequestTimeout_abortControllers (st : RCState) (rid : String)
    (ms : Nat) (b : Bool) :
    (setRequestTimeout st rid ms b).abortControllers = st.abortControllers := by
  simp only [setRequestTimeout]
  exact (clearRequestTimeout_frame st rid).1

theorem createAbortController_get (st : RCState) (rid : String) :
    mapGet (createAbortController st rid).1.abortControllers rid
      = some (createAbortController st rid).2 := by
  simp only [createAbortController]
  exact mapGet_mapSet_self _ _ _

/-! ## Claim theorems -/

/-- **C1.** For every reconnection attempt `n ≥ 1` scheduled by
`WebSocketManager.scheduleReconnect`, the delay before that attempt equals
`reconnectDelay * 2 ^ (n - 1)` milliseconds (with `reconnectDelay = 1000`):
from a state with `reconnectAttempts = n - 1` the scheduled attempt is the
`n`-th and its delay is `1000 * 2 ^ (n - 1)`; iterating from the constructor
state, the delays for attempts 1 through 5 are 1000, 2000, 4000, 8000,
16000 ms. -/
theorem scheduleReconnect_exponential_backoff (s : WSState) (n : Nat)
    (hn : 1 ≤ n) (hd : s.reconnectDelay = 1000)
    (ha : s.reconnectAttempts = n - 1) :
    (scheduleReconnect s).2 = 1000 * 2 ^ (n - 1) ∧
    (scheduleReconnect s).1.reconnectAttempts = n ∧
    reconnectDelays WSState.init 5 = [1000, 2000, 4000, 8000, 16000] := by
  refine ⟨?_, ?_, by rfl⟩
  · show s.reconnectDelay * 2 ^ (s.reconnectAttempts + 1 - 1) = 1000 * 2 ^ (n - 1)
    rw [hd, ha]
    congr 1
  · show s.reconnectAttempts + 1 = n
    omega

theorem scheduleReconnect_exponential_backoff_witness :
    (scheduleReconnect { WSState.init with reconnectAttempts := 2 }).2
        = 1000 * 2 ^ (3 - 1) ∧
    (scheduleReconnect
        { WSState.init with reconnectAttempts := 2 }).1.reconnectAttempts = 3 ∧
    reconnectDelays WSState.init 5 = [1000, 2000, 4000, 8000, 16000] :=
  scheduleReconnect_exponential_backoff
    { WSState.init with reconnectAttempts := 2 } 3 (by decide) rfl rfl

/-- **C2.** For every `requestId`: `cancelRequest(requestId)` returns `true`,
aborts the registered `AbortController`, and removes `requestId` from the
`abortControllers`, `activeRequests` and `requestTimeouts` maps (clearing
its pending timeout via `clearTimeout`) if and only if an abort controller
is registered for `requestId`; when none is registered it returns `false`
and leaves the state unchanged.  The hypothesis records that stored timer
ids are nonzero, as browser `setTimeout` ids always are. -/
theorem cancelRequest_spec (st : RCState) (rid : String)
    (hids : ∀ p ∈ st.requestTimeouts, p.2.timeoutId ≠ 0) :
    (∀ c, mapGet st.abortControllers rid = some c →
        (cancelRequest st rid).2 = true ∧
        c.ctrlId ∈ (cancelRequest st rid).1.abortedLog ∧
        mapGet (cancelRequest st rid).1.abortControllers rid = none ∧
        mapGet (cancelRequest st rid).1.activeRequests rid = none ∧
        mapGet (cancelRequest st rid).1.requestTimeouts rid = none ∧
        (∀ t, mapGet st.requestTimeouts rid = some t →
            t.timeoutId ∈ (cancelRequest st rid).1.clearedLog)) ∧
    ((cancelRequest st rid).2 = true →
        (mapGet st.abortControllers rid).isSome = true) ∧
    (mapGet st.abortControllers rid = none →
        cancelRequest st rid = (st, false)) := by
  have hids' : ∀ t, mapGet st.requestTimeouts rid = some t →
      t.timeoutId ≠ 0 :=
    fun t ht => hids (rid, t) (mapGet_some_mem _ _ _ ht)
  refine ⟨?_, ?_, cancelRequest_not_found st rid⟩
  · intro c hc
    have h := cancelRequest_found st rid c hc hids'
    refine ⟨h.1, ?_, h.2.2.1, h.2.2.2.1, h.2.2.2.2.1, h.2.2.2.2.2⟩
    rw [h.2.1]
    simp
  · intro htrue
    cases hN : mapGet st.abortControllers rid with
    | none =>
      rw [cancelRequest_not_found st rid hN] at htrue
      exact Bool.noConfusion htrue
    | some c => rfl

theorem cancelRequest_spec_witness :
    (cancelRequest
      { RCState.init with
          abortControllers := [("r", ⟨5, false⟩)]
          activeRequests := [("r", 0)]
          requestTimeouts := [("r", ⟨9, 30000, true⟩)] } "r").2 = true ∧
    (5 : Nat) ∈ (cancelRequest
      { RCState.init with
          abortControllers := [("r", ⟨5, false⟩)]
          activeRequests := [("r", 0)]
          requestTimeouts := [("r", ⟨9, 30000, true⟩)] } "r").1.abortedLog ∧
    mapGet (cancelRequest
      { RCState.init with
          abortControllers := [("r", ⟨5, false⟩)]
          activeRequests := [("r", 0)]
          requestTimeouts := [("r", ⟨9, 30000, true⟩)] } "r").1.abortControllers
      "r" = none :=
  have h := (cancelRequest_spec
    { RCState.init with
        abortControllers := [("r", ⟨5, false⟩)]
        activeRequests := [("r", 0)]
        requestTimeouts := [("r", ⟨9, 30000, true⟩)] } "r" (by decide)).1
    ⟨5, false⟩ rfl
  ⟨h.1, h.2.1, h.2.2.1⟩

/-- **C3.** The wrapper reconnects exactly on abnormal closes: the `onclose`
handler schedules a reconnection attempt iff the close code differs from
1000 and `reconnectAttempts < maxReconnectAttempts`; a close with code 1000
never schedules one, and `disconnect()` closes the socket (when present)
with code 1000. -/
theorem reconnect_iff_abnormal_close :
    (∀ s code, (handleClose s code).2 = true ↔
        (code ≠ 1000 ∧ s.reconnectAttempts < s.maxReconnectAttempts)) ∧
    (∀ s, (handleClose s 1000).2 = false) ∧
    (∀ s, (disconnect s).2
        = if s.wsPresent = true then some 1000 else none) := by
  refine ⟨fun s code => ?_, fun s => ?_, fun s => ?_⟩
  · constructor
    · intro h
      by_contra hn
      unfold handleClose at h
      rw [if_neg (by simpa using hn)] at h
      exact Bool.noConfusion h
    · intro h
      unfold handleClose
      rw [if_pos (by simpa using h)]
  · unfold handleClose
    rw [if_neg (by simp)]
  · unfold disconnect
    by_cases hw : s.wsPresent
    · rw [if_pos hw, if_pos hw]
    · rw [if_neg hw, if_neg hw]

theorem reconnect_iff_abnormal_close_witness :
    ((handleClose WSState.init 1006).2 = true ↔
        ((1006 : Nat) ≠ 1000 ∧
          WSState.init.reconnectAttempts
            < WSState.init.maxReconnectAttempts)) ∧
    (handleClose WSState.init 1000).2 = false ∧
    (disconnect { WSState.init with wsPresent := true }).2
      = (if ({ WSState.init with wsPresent := true } : WSState).wsPresent
            = true then some 1000 else none) :=
  ⟨reconnect_iff_abnormal_close.1 WSState.init 1006,
   reconnect_iff_abnormal_close.2.1 WSState.init,
   reconnect_iff_abnormal_close.2.2 { WSState.init with wsPresent := true }⟩

/-- **C4.** A request started with `createCancellableRequest` and no explicit
`timeout` option gets a 30000 ms timeout registered; when that timeout fires
before the request completes, the tracker cancels the request — aborting its
controller and removing it from all three bookkeeping maps, clearing the
stored timer — and invokes the `onTimeout` callback exactly when one was
supplied. -/
theorem ccr_default_timeout (st : RCState) (rid : String) (opts : CCROptions)
    (hopt : opts.timeout = none) :
    mapGet (createCancellableRequestSetup st rid opts).1.requestTimeouts rid
      = some ⟨(clearRequestTimeout
            (createAbortController st rid).1 rid).nextTimerId + 1,
          30000, opts.hasOnTimeout⟩ ∧
    (createCancellableRequestSetup st rid opts).2.ctrlId
      ∈ (fireTimeout (createCancellableRequestSetup st rid opts).1 rid
          opts.hasOnTimeout).1.abortedLog ∧
    mapGet (fireTimeout (createCancellableRequestSetup st rid opts).1 rid
        opts.hasOnTimeout).1.abortControllers rid = none ∧
    mapGet (fireTimeout (createCancellableRequestSetup st rid opts).1 rid
        opts.hasOnTimeout).1.activeRequests rid = none ∧
    mapGet (fireTimeout (createCancellableRequestSetup st rid opts).1 rid
        opts.hasOnTimeout).1.requestTimeouts rid = none ∧
    ((clearRequestTimeout (createAbortController st rid).1 rid).nextTimerId + 1)
      ∈ (fireTimeout (createCancellableRequestSetup st rid opts).1 rid
          opts.hasOnTimeout).1.clearedLog ∧
    (fireTimeout (createCancellableRequestSetup st rid opts).1 rid
        opts.hasOnTimeout).2 = opts.hasOnTimeout := by
  have hsetup : createCancellableRequestSetup st rid opts
      = (markRequestActive (setRequestTimeout (createAbortController st rid).1
          rid 30000 opts.hasOnTimeout) rid 0,
         (createAbortController st rid).2) := by
    simp [createCancellableRequestSetup, ccrTimeout, hopt]
  rw [hsetup]
  dsimp only
  set A := createAbortController st rid with hA
  set B := setRequestTimeout A.1 rid 30000 opts.hasOnTimeout with hB
  set S := markRequestActive B rid 0 with hS
  have hT : mapGet S.requestTimeouts rid
      = some ⟨(clearRequestTimeout A.1 rid).nextTimerId + 1, 30000,
          opts.hasOnTimeout⟩ := by
    rw [hS]
    show mapGet B.requestTimeouts rid = _
    rw [hB]
    exact setRequestTimeout_get A.1 rid 30000 opts.hasOnTimeout
  have hc : mapGet S.abortControllers rid = some A.2 := by
    rw [hS]
    show mapGet B.abortControllers rid = some A.2
    rw [hB, setRequestTimeout_abortControllers]
    rw [hA]
    exact createAbortController_get st rid
  have hids : ∀ t, mapGet S.requestTimeouts rid = some t →
      t.timeoutId ≠ 0 := by
    intro t ht
    rw [hT] at ht
    injection ht with h2
    rw [← h2]
    simp
  have h := cancelRequest_found S rid A.2 hc hids
  refine ⟨hT, ?_, ?_, ?_, ?_, ?_, rfl⟩
  · show A.2.ctrlId ∈ (cancelRequest S rid).1.abortedLog
    rw [h.2.1]
    simp
  · exact h.2.2.1
  · exact h.2.2.2.1
  · exact h.2.2.2.2.1
  · show _ ∈ (cancelRequest S rid).1.clearedLog
    have hm := h.2.2.2.2.2 _ hT
    simpa using hm

theorem ccr_default_timeout_witness :
    mapGet (createCancellableRequestSetup RCState.init "q"
        ⟨none, true, false⟩).1.requestTimeouts "q"
      = some ⟨(clearRequestTimeout
            (createAbortController RCState.init "q").1 "q").nextTimerId + 1,
          30000, true⟩ ∧
    (createCancellableRequestSetup RCState.init "q" ⟨none, true, false⟩).2.ctrlId
      ∈ (fireTimeout (createCancellableRequestSetup RCState.init "q"
            ⟨none, true, false⟩).1 "q" true).1.abortedLog ∧
    mapGet (fireTimeout (createCancellableRequestSetup RCState.init "q"
        ⟨none, true, false⟩).1 "q" true).1.abortControllers "q" = none ∧
    mapGet (fireTimeout (createCancellableRequestSetup RCState.init "q"
        ⟨none, true, false⟩).1 "q" true).1.activeRequests "q" = none ∧
    mapGet (fireTimeout (createCancellableRequestSetup RCState.init "q"
        ⟨none, true, false⟩).1 "q" true).1.requestTimeouts "q" = none ∧
    ((clearRequestTimeout
        (createAbortController RCState.init "q").1 "q").nextTimerId + 1)
      ∈ (fireTimeout (createCancellableRequestSetup RCState.init "q"
          ⟨none, true, false⟩).1 "q" true).1.clearedLog ∧
    (fireTimeout (createCancellableRequestSetup RCState.init "q"
        ⟨none, true, false⟩).1 "q" true).2 = true :=
  ccr_default_timeout RCState.init "q" ⟨none, true, false⟩ rfl

/-- **C5, counterexample.** The claim fails on two ordinary inputs.
First, for the message type `''`: a handler is registered for `''`
(`mapGet` finds it), yet `handleMessage` invokes nothing — the guard
`type && this.messageHandlers.has(type)` is falsy for the empty string, the
default switch has no case for `''`, and no event is dispatched.  Second,
for a five-type message with no `payload` object (`\x7b "type": "progress" \x7d`):
the claim promises a `websocket:progress` event, but `handleProgressUpdate`
throws while destructuring `payload` (`undefined`), the exception is caught
by `onmessage`'s try/catch, and no event is dispatched. -/
theorem handleMessage_empty_type_cex :
    (mapGet [("", 7)] "" = some 7 ∧
      handleMessage [("", 7)] (some "") (some []) = HandleResult.nothing) ∧
    ((fieldsFor "progress").isSome = true ∧
      handleMessage [] (some "progress") none = HandleResult.thrown) := by
  exact ⟨⟨rfl, rfl⟩, ⟨rfl, rfl⟩⟩

/-- **C5, amended.** For every parsed message: when its type is a non-empty
string with a registered handler, exactly that handler is invoked with the
message; otherwise, for each of the five types `progress`, `status`,
`result`, `error`, `complete` (with no registered handler), if the message
carries a payload object a `CustomEvent` named `websocket:<type>` is
dispatched carrying the corresponding payload fields as detail, and if it
carries none the dedicated handler throws while destructuring `payload`
(caught by `onmessage`) and no event is dispatched; any other type —
including the empty-string type, even when a handler is registered for it —
dispatches no event. -/
theorem handleMessage_routing :
    (∀ hs t p h, t ≠ "" → mapGet hs t = some h →
        handleMessage hs (some t) p = HandleResult.handler h (some t) p) ∧
    (∀ hs t po fl, mapGet hs t = none → fieldsFor t = some fl →
        handleMessage hs (some t) (some po)
          = HandleResult.event ("websocket:" ++ t) (mkDetail fl po)) ∧
    (∀ hs t fl, mapGet hs t = none → fieldsFor t = some fl →
        handleMessage hs (some t) none = HandleResult.thrown) ∧
    (∀ hs t p, mapGet hs t = none → fieldsFor t = none →
        handleMessage hs (some t) p = HandleResult.nothing) ∧
    (∀ hs p h, mapGet hs "" = some h →
        handleMessage hs (some "") p = HandleResult.nothing) ∧
    (∀ hs p, handleMessage hs none p = HandleResult.nothing) := by
  refine ⟨?_, ?_, ?_, ?_, ?_, ?_⟩
  · intro hs t p h ht hh
    simp only [handleMessage, if_pos ht, hh]
  · intro hs t po fl hh hf
    by_cases ht : t = ""
    · subst ht
      rw [show fieldsFor "" = none from rfl] at hf
      exact Option.noConfusion hf
    · simp only [handleMessage, if_pos ht, hh, handleDefaultMessage, hf]
  · intro hs t fl hh hf
    by_cases ht : t = ""
    · subst ht
      rw [show fieldsFor "" = none from rfl] at hf
      exact Option.noConfusion hf
    · simp only [handleMessage, if_pos ht, hh, handleDefaultMessage, hf]
  · intro hs t p hh hf
    by_cases ht : t = ""
    · subst ht
      simp only [handleMessage, handleDefaultMessage]
      rw [if_neg (by simp), show fieldsFor "" = none from rfl]
    · simp only [handleMessage, if_pos ht, hh, handleDefaultMessage, hf]
  · intro hs p h hh
    simp only [handleMessage, handleDefaultMessage]
    rw [if_neg (by simp), show fieldsFor "" = none from rfl]
  · intro hs p
    simp only [handleMessage, handleDefaultMessage]

theorem handleMessage_routing_witness :
    handleMessage [("progress", 3)] (some "progress")
        (some [("current", "1")])
      = HandleResult.handler 3 (some "progress") (some [("current", "1")]) ∧
    handleMessage [] (some "progress") (some [("current", "1")])
      = HandleResult.event ("websocket:" ++ "progress")
          (mkDetail ["current", "total", "percentage", "operation", "session"]
            [("current", "1")]) ∧
    handleMessage [] (some "progress") none = HandleResult.thrown ∧
    handleMessage [] (some "bogus") (some []) = HandleResult.nothing ∧
    handleMessage [("", 7)] (some "") (some [("x", "y")])
      = HandleResult.nothing ∧
    handleMessage [] none (some []) = HandleResult.nothing :=
  ⟨handleMessage_routing.1 [("progress", 3)] "progress"
      (some [("current", "1")]) 3 (by decide) rfl,
   handleMessage_routing.2.1 [] "progress" [("current", "1")]
      ["current", "total", "percentage", "operation", "session"] rfl rfl,
   handleMessage_routing.2.2.1 [] "progress"
      ["current", "total", "percentage", "operation", "session"] rfl rfl,
   handleMessage_routing.2.2.2.1 [] "bogus" (some []) rfl rfl,
   handleMessage_routing.2.2.2.2.1 [("", 7)] (some [("x", "y")]) 7 rfl,
   handleMessage_routing.2.2.2.2.2 [] (some [])⟩

theorem validateSessionFile_eval (f : JsFile) (hname : f.name ≠ "") :
    validateSessionFile (some f) =
      if ALL_SESSION_FILES.contains (jsExtension f.name) then
        (if f.size > MAX_SESSION_FILE then
          { isValid := false
            error := some ("File too large. Maximum size: "
              ++ toFixed1Div MAX_SESSION_FILE (1024 * 1024) ++ "MB") }
        else
          { isValid := true
            fileType := some (jsExtension f.name)
            fileSize := some f.size })
      else
        { isValid := false
          error := some ("File type not allowed. Allowed types: "
            ++ String.intercalate ", " ALL_SESSION_FILES) } := by
  by_cases hc : ALL_SESSION_FILES.contains (jsExtension f.name)
  · have hcm : jsExtension f.name ∈ ALL_SESSION_FILES := by simpa using hc
    rw [if_pos hc]
    by_cases hs : f.size > MAX_SESSION_FILE
    · rw [if_pos hs]
      simp [validateSessionFile, validateFileType, validateFileSize, hname,
        hcm, hs]
    · rw [if_neg hs]
      simp [validateSessionFile, validateFileType, validateFileSize, hname,
        hcm, hs]
  · have hcm : jsExtension f.name ∉ ALL_SESSION_FILES := by simpa using hc
    rw [if_neg hc]
    simp [validateSessionFile, validateFileType, hname, hcm]

/-- **C6.** For every `File` with a defined (non-empty) name,
`validateSessionFile` returns `isValid = true` iff the name's extension
(lower-cased) is `.session` or `.zip` and the size is at most
`5 * 1024 * 1024` bytes; in every other case it returns `isValid = false`
together with a non-empty error message. -/
theorem validateSessionFile_spec (f : JsFile) (hname : f.name ≠ "") :
    ((validateSessionFile (some f)).isValid = true ↔
      ((jsExtension f.name = ".session" ∨ jsExtension f.name = ".zip") ∧
        f.size ≤ 5 * 1024 * 1024)) ∧
    ((validateSessionFile (some f)).isValid = false →
      (validateSessionFile (some f)).error.getD "" ≠ "") := by
  have hev := validateSessionFile_eval f hname
  have hMAX : MAX_SESSION_FILE = 5 * 1024 * 1024 := rfl
  have hext : ALL_SESSION_FILES.contains (jsExtension f.name) = true ↔
      (jsExtension f.name = ".session" ∨ jsExtension f.name = ".zip") := by
    simp [ALL_SESSION_FILES]
  by_cases hc : ALL_SESSION_FILES.contains (jsExtension f.name)
  · rw [if_pos hc] at hev
    by_cases hs : f.size > MAX_SESSION_FILE
    · rw [if_pos hs] at hev
      rw [hev]
      rw [hMAX] at hs
      constructor
      · constructor
        · intro h
          exact absurd h (by simp)
        · rintro ⟨_, hsz⟩
          exfalso
          omega
      · intro _
        decide
    · rw [if_neg hs] at hev
      rw [hev]
      rw [hMAX] at hs
      constructor
      · constructor
        · intro _
          exact ⟨hext.mp hc, by omega⟩
        · intro _
          rfl
      · intro h
        exact absurd h (by simp)
  · rw [if_neg hc] at hev
    rw [hev]
    constructor
    · constructor
      · intro h
        exact absurd h (by simp)
      · rintro ⟨hor, _⟩
        exact absurd (hext.mpr hor) hc
    · intro _
      decide

theorem validateSessionFile_spec_witness :
    (validateSessionFile (some (⟨"a.SeSsIoN", 100⟩ : JsFile))).isValid
      = true ∧
    (validateSessionFile (some (⟨"b.txt", 100⟩ : JsFile))).error.getD "" ≠ "" :=
  ⟨(validateSessionFile_spec ⟨"a.SeSsIoN", 100⟩ (by decide)).1.mpr
      ⟨Or.inl (by decide), by decide⟩,
   (validateSessionFile_spec ⟨"b.txt", 100⟩ (by decide)).2 (by decide)⟩

theorem vmfLoop_length {α : Type} (validator : α → VResult) (fs : List α)
    (i : Nat) :
    (vmfLoop validator fs i).1.length + (vmfLoop validator fs i).2.length
      = fs.length := by
  induction fs generalizing i with
  | nil => rfl
  | cons f rest ih =>
    have := ih (i + 1)
    by_cases hv : (validator f).isValid = true
    · simp only [vmfLoop]
      rw [if_pos hv]
      dsimp only
      simp only [List.length_cons]
      omega
    · simp only [vmfLoop]
      rw [if_neg hv]
      dsimp only
      simp only [List.length_cons]
      omega

theorem vmfLoop_mem_valid {α : Type} (validator : α → VResult) (fs : List α)
    (i : Nat) (e : ValidEntry α) :
    e ∈ (vmfLoop validator fs i).1 ↔
      ∃ j, ∃ hj : j < fs.length, e.index = i + j ∧
        e.file = fs.get ⟨j, hj⟩ ∧ (validator e.file).isValid = true ∧
        e.result = validator e.file := by
  induction fs generalizing i with
  | nil => simp [vmfLoop]
  | cons f rest ih =>
    by_cases hv : (validator f).isValid = true
    · simp only [vmfLoop]
      rw [if_pos hv]
      dsimp only
      rw [List.mem_cons]
      constructor
      · rintro (rfl | hmem)
        · exact ⟨0, by simp, by simp, by simp, by simpa using hv, rfl⟩
        · obtain ⟨j, hj, h1, h2, h3, h4⟩ := (ih (i + 1)).mp hmem
          refine ⟨j + 1, by simpa using hj, by omega, by simpa using h2,
            h3, h4⟩
      · rintro ⟨j, hj, h1, h2, h3, h4⟩
        cases j with
        | zero =>
          left
          obtain ⟨ef, ei, er⟩ := e
          simp only at h1 h2 h3 h4
          simp at h2
          subst h2
          have h1' : ei = i := by omega
          subst h1'
          rw [h4]
        | succ j' =>
          right
          apply (ih (i + 1)).mpr
          have hj' : j' < rest.length := by
            simp only [List.length_cons] at hj
            omega
          refine ⟨j', hj', by omega, by simpa using h2, h3, h4⟩
    · simp only [vmfLoop]
      rw [if_neg hv]
      dsimp only
      rw [ih (i + 1)]
      constructor
      · rintro ⟨j, hj, h1, h2, h3, h4⟩
        exact ⟨j + 1, by simpa using hj, by omega, by simpa using h2, h3, h4⟩
      · rintro ⟨j, hj, h1, h2, h3, h4⟩
        cases j with
        | zero =>
          exfalso
          simp at h2
          rw [h2] at h3
          exact hv h3
        | succ j' =>
          have hj' : j' < rest.length := by
            simp only [List.length_cons] at hj
            omega
          refine ⟨j', hj', by omega, by simpa using h2, h3, h4⟩

theorem vmfLoop_mem_invalid {α : Type} (validator : α → VResult)
    (fs : List α) (i : Nat) (e : InvalidEntry α) :
    e ∈ (vmfLoop validator fs i).2 ↔
      ∃ j, ∃ hj : j < fs.length, e.index = i + j ∧
        e.file = fs.get ⟨j, hj⟩ ∧ (validator e.file).isValid = false ∧
        e.error = (validator e.file).error := by
  induction fs generalizing i with
  | nil => simp [vmfLoop]
  | cons f rest ih =>
    by_cases hv : (validator f).isValid = true
    · simp only [vmfLoop]
      rw [if_pos hv]
      dsimp only
      rw [ih (i + 1)]
      constructor
      · rintro ⟨j, hj, h1, h2, h3, h4⟩
        exact ⟨j + 1, by simpa using hj, by omega, by simpa using h2, h3, h4⟩
      · rintro ⟨j, hj, h1, h2, h3, h4⟩
        cases j with
        | zero =>
          exfalso
          simp at h2
          rw [h2] at h3
          rw [hv] at h3
          exact Bool.noConfusion h3
        | succ j' =>
          have hj' : j' < rest.length := by
            simp only [List.length_cons] at hj
            omega
          refine ⟨j', hj', by omega, by simpa using h2, h3, h4⟩
    · simp only [vmfLoop]
      rw [if_neg hv]
      dsimp only
      rw [List.mem_cons]
      constructor
      · rintro (rfl | hmem)
        · exact ⟨0, by simp, by simp, by simp,
            by simpa using Bool.of_not_eq_true hv, rfl⟩
        · obtain ⟨j, hj, h1, h2, h3, h4⟩ := (ih (i + 1)).mp hmem
          refine ⟨j + 1, by simpa using hj, by omega, by simpa using h2,
            h3, h4⟩
      · rintro ⟨j, hj, h1, h2, h3, h4⟩
        cases j with
        | zero =>
          left
          obtain ⟨ef, ei, er⟩ := e
          simp only at h1 h2 h3 h4
          simp at h2
          subst h2
          have h1' : ei = i := by omega
          subst h1'
          rw [h4]
        | succ j' =>
          right
          apply (ih (i + 1)).mpr
          have hj' : j' < rest.length := by
            simp only [List.length_cons] at hj
            omega
          refine ⟨j', hj', by omega, by simpa using h2, h3, h4⟩

theorem vmfLoop_valid_index_lb {α : Type} (validator : α → VResult)
    (fs : List α) (i : Nat) :
    ∀ e ∈ (vmfLoop validator fs i).1, i ≤ e.index := by
  intro e he
  obtain ⟨j, hj, h1, _⟩ := (vmfLoop_mem_valid validator fs i e).mp he
  omega

theorem vmfLoop_invalid_index_lb {α : Type} (validator : α → VResult)
    (fs : List α) (i : Nat) :
    ∀ e ∈ (vmfLoop validator fs i).2, i ≤ e.index := by
  intro e he
  obtain ⟨j, hj, h1, _⟩ := (vmfLoop_mem_invalid validator fs i e).mp he
  omega

theorem vmfLoop_valid_nodup {α : Type} (validator : α → VResult)
    (fs : List α) (i : Nat) :
    ((vmfLoop validator fs i).1.map ValidEntry.index).Nodup := by
  induction fs generalizing i with
  | nil => simp [vmfLoop]
  | cons f rest ih =>
    by_cases hv : (validator f).isValid = true
    · simp only [vmfLoop]
      rw [if_pos hv]
      dsimp only
      simp only [List.map_cons, List.nodup_cons]
      refine ⟨?_, ih (i + 1)⟩
      intro hmem
      obtain ⟨e, he, hei⟩ := List.mem_map.mp hmem
      have := vmfLoop_valid_index_lb validator rest (i + 1) e he
      omega
    · simp only [vmfLoop]
      rw [if_neg hv]
      dsimp only
      exact ih (i + 1)

theorem vmfLoop_invalid_nodup {α : Type} (validator : α → VResult)
    (fs : List α) (i : Nat) :
    ((vmfLoop validator fs i).2.map InvalidEntry.index).Nodup := by
  induction fs generalizing i with
  | nil => simp [vmfLoop]
  | cons f rest ih =>
    by_cases hv : (validator f).isValid = true
    · simp only [vmfLoop]
      rw [if_pos hv]
      dsimp only
      exact ih (i + 1)
    · simp only [vmfLoop]
      rw [if_neg hv]
      dsimp only
      simp only [List.map_cons, List.nodup_cons]
      refine ⟨?_, ih (i + 1)⟩
      intro hmem
      obtain ⟨e, he, hei⟩ := List.mem_map.mp hmem
      have := vmfLoop_invalid_index_lb validator rest (i + 1) e he
      omega

/-- **C7.** `validateMultipleFiles` partitions its input:
`validCount + invalidCount = totalFiles = files.length`, each input file
appears (at its original index) in `validFiles` exactly when its validation
succeeds and in `invalidFiles` exactly when it fails (each index at most
once in each list), the overall `isValid` is `true` exactly when
`invalidCount = 0`, and a non-array or empty input yields `isValid = false`
with error `'No files provided'`. -/
theorem validateMultipleFiles_partition {α : Type} (fs : List α)
    (validator : α → VResult) (hne : fs ≠ []) :
    (validateMultipleFiles (some fs) validator).totalFiles = fs.length ∧
    (validateMultipleFiles (some fs) validator).validCount
        + (validateMultipleFiles (some fs) validator).invalidCount
      = (validateMultipleFiles (some fs) validator).totalFiles ∧
    (validateMultipleFiles (some fs) validator).validCount
      = (validateMultipleFiles (some fs) validator).validFiles.length ∧
    (validateMultipleFiles (some fs) validator).invalidCount
      = (validateMultipleFiles (some fs) validator).invalidFiles.length ∧
    ((validateMultipleFiles (some fs) validator).isValid = true ↔
      (validateMultipleFiles (some fs) validator).invalidCount = 0) ∧
    (∀ e, e ∈ (validateMultipleFiles (some fs) validator).validFiles ↔
      ∃ hj : e.index < fs.length, e.file = fs.get ⟨e.index, hj⟩ ∧
        (validator e.file).isValid = true ∧ e.result = validator e.file) ∧
    (∀ e, e ∈ (validateMultipleFiles (some fs) validator).invalidFiles ↔
      ∃ hj : e.index < fs.length, e.file = fs.get ⟨e.index, hj⟩ ∧
        (validator e.file).isValid = false ∧
        e.error = (validator e.file).error) ∧
    ((validateMultipleFiles (some fs) validator).validFiles.map
        ValidEntry.index).Nodup ∧
    ((validateMultipleFiles (some fs) validator).invalidFiles.map
        InvalidEntry.index).Nodup ∧
    validateMultipleFiles (none : Option (List α)) validator
      = { isValid := false, error := some "No files provided" } ∧
    validateMultipleFiles (some ([] : List α)) validator
      = { isValid := false, error := some "No files provided" } := by
  have hlen0 : fs.length ≠ 0 := by
    intro h
    exact hne (List.length_eq_zero.mp h)
  have hdef : validateMultipleFiles (some fs) validator
      = { isValid := ((vmfLoop validator fs 0).2.length == 0)
          validFiles := (vmfLoop validator fs 0).1
          invalidFiles := (vmfLoop validator fs 0).2
          totalFiles := fs.length
          validCount := (vmfLoop validator fs 0).1.length
          invalidCount := (vmfLoop validator fs 0).2.length } := by
    simp only [validateMultipleFiles]
    rw [if_neg hlen0]
  rw [hdef]
  refine ⟨rfl, vmfLoop_length validator fs 0, rfl, rfl, by simp, ?_, ?_,
    vmfLoop_valid_nodup validator fs 0, vmfLoop_invalid_nodup validator fs 0,
    rfl, rfl⟩
  · intro e
    dsimp only
    rw [vmfLoop_mem_valid]
    constructor
    · rintro ⟨j, hj, h1, h2, h3, h4⟩
      have hej : j = e.index := by omega
      subst hej
      exact ⟨hj, h2, h3, h4⟩
    · rintro ⟨hj, h2, h3, h4⟩
      exact ⟨e.index, hj, by omega, h2, h3, h4⟩
  · intro e
    dsimp only
    rw [vmfLoop_mem_invalid]
    constructor
    · rintro ⟨j, hj, h1, h2, h3, h4⟩
      have hej : j = e.index := by omega
      subst hej
      exact ⟨hj, h2, h3, h4⟩
    · rintro ⟨hj, h2, h3, h4⟩
      exact ⟨e.index, hj, by omega, h2, h3, h4⟩

theorem validateMultipleFiles_partition_witness :
    (validateMultipleFiles (some [(⟨"a.session", 1⟩ : JsFile), ⟨"b.txt", 2⟩])
        (fun f => validateSessionFile (some f))).totalFiles = 2 ∧
    (validateMultipleFiles (some [(⟨"a.session", 1⟩ : JsFile), ⟨"b.txt", 2⟩])
          (fun f => validateSessionFile (some f))).validCount
        + (validateMultipleFiles
            (some [(⟨"a.session", 1⟩ : JsFile), ⟨"b.txt", 2⟩])
            (fun f => validateSessionFile (some f))).invalidCount
      = (validateMultipleFiles (some [(⟨"a.session", 1⟩ : JsFile), ⟨"b.txt", 2⟩])
          (fun f => validateSessionFile (some f))).totalFiles ∧
    (⟨⟨"a.session", 1⟩, 0, validateSessionFile (some ⟨"a.session", 1⟩)⟩ :
        ValidEntry JsFile)
      ∈ (validateMultipleFiles (some [(⟨"a.session", 1⟩ : JsFile), ⟨"b.txt", 2⟩])
          (fun f => validateSessionFile (some f))).validFiles ∧
    (⟨⟨"b.txt", 2⟩, 1, (validateSessionFile (some ⟨"b.txt", 2⟩)).error⟩ :
        InvalidEntry JsFile)
      ∈ (validateMultipleFiles (some [(⟨"a.session", 1⟩ : JsFile), ⟨"b.txt", 2⟩])
          (fun f => validateSessionFile (some f))).invalidFiles :=
  have h := validateMultipleFiles_partition
    [(⟨"a.session", 1⟩ : JsFile), ⟨"b.txt", 2⟩]
    (fun f => validateSessionFile (some f)) (by simp)
  ⟨h.1, h.2.1,
   (h.2.2.2.2.2.1 _).mpr ⟨by decide, by decide, by decide, rfl⟩,
   (h.2.2.2.2.2.2.1 _).mpr ⟨by decide, by decide, by decide, rfl⟩⟩

/-- **C8.** In the `'zip'` use case of `validateFileUpload` (and for
`.zip`-named files under `'mixed'`), the expression
`validateFileType(...) && validateFileSize(...)` always evaluates to the
size-validation object, because the type-validation result is a truthy
object even when invalid; hence the per-file result equals
`validateFileSize` alone, and a file whose extension is not `.zip` but
whose size is at most `50 * 1024 * 1024` bytes is reported valid. -/
theorem zip_useCase_size_only :
    (∀ file, zipFileValidator file = validateFileSize file MAX_ZIP_FILE 0) ∧
    (∀ f : JsFile, jsEndsWith f.name FILE_TYPES_SESSION = false →
        jsEndsWith f.name FILE_TYPES_ZIP = true →
        mixedFileValidator f = validateFileSize (some f) MAX_ZIP_FILE 0) ∧
    (∀ files, validateFileUpload files "zip"
      = validateMultipleFiles files
          (fun f => validateFileSize (some f) MAX_ZIP_FILE 0)) ∧
    (∀ f : JsFile, jsExtension f.name ≠ ".zip" →
        f.size ≤ 50 * 1024 * 1024 →
        (zipFileValidator (some f)).isValid = true) := by
  refine ⟨fun file => rfl, ?_, fun files => rfl, ?_⟩
  · intro f h1 h2
    unfold mixedFileValidator
    rw [if_neg (by simp [h1]), if_pos h2]
    rfl
  · intro f _hext hsz
    show (validateFileSize (some f) MAX_ZIP_FILE 0).isValid = true
    have hgt : ¬ f.size > MAX_ZIP_FILE := by
      have hMAX : MAX_ZIP_FILE = 50 * 1024 * 1024 := rfl
      rw [hMAX]
      omega
    simp only [validateFileSize]
    rw [if_neg hgt, if_neg (by simp)]

theorem zip_useCase_size_only_witness :
    mixedFileValidator ⟨"archive.zip", 10⟩
      = validateFileSize (some ⟨"archive.zip", 10⟩) MAX_ZIP_FILE 0 ∧
    (zipFileValidator (some (⟨"document.txt", 1000⟩ : JsFile))).isValid
      = true :=
  ⟨zip_useCase_size_only.2.1 ⟨"archive.zip", 10⟩ (by decide) (by decide),
   zip_useCase_size_only.2.2.2 ⟨"document.txt", 1000⟩ (by decide) (by decide)⟩

theorem wsStep_preserves (s : WSState) (e : WSEvent)
    (h : s.reconnectAttempts ≤ s.maxReconnectAttempts) :
    (wsStep s e).reconnectAttempts ≤ (wsStep s e).maxReconnectAttempts ∧
    (wsStep s e).maxReconnectAttempts = s.maxReconnectAttempts := by
  cases e with
  | openEv => exact ⟨by simp [wsStep, handleOpen], rfl⟩
  | closeEv code =>
    have hcl : (handleClose s code).1.reconnectAttempts
          ≤ (handleClose s code).1.maxReconnectAttempts ∧
        (handleClose s code).1.maxReconnectAttempts
          = s.maxReconnectAttempts := by
      unfold handleClose
      dsimp only
      by_cases hcond : code ≠ 1000 ∧
          s.reconnectAttempts < s.maxReconnectAttempts
      · rw [if_pos hcond]
        dsimp only [scheduleReconnect]
        exact ⟨by omega, rfl⟩
      · rw [if_neg hcond]
        exact ⟨h, rfl⟩
    exact hcl
  | connectEv fails =>
    cases fails
    · exact ⟨h, rfl⟩
    · exact ⟨h, rfl⟩
  | disconnectEv =>
    have hd : (disconnect s).1.reconnectAttempts
          ≤ (disconnect s).1.maxReconnectAttempts ∧
        (disconnect s).1.maxReconnectAttempts = s.maxReconnectAttempts := by
      unfold disconnect
      by_cases hw : s.wsPresent = true
      · rw [if_pos hw]
        exact ⟨h, rfl⟩
      · rw [if_neg hw]
        exact ⟨h, rfl⟩
    exact hd
  | errorEv => exact ⟨h, rfl⟩

theorem wsRun_foldl_inv (es : List WSEvent) : ∀ s : WSState,
    s.reconnectAttempts ≤ s.maxReconnectAttempts →
    (es.foldl wsStep s).reconnectAttempts
        ≤ (es.foldl wsStep s).maxReconnectAttempts ∧
    (es.foldl wsStep s).maxReconnectAttempts = s.maxReconnectAttempts := by
  induction es with
  | nil =>
    intro s hs
    exact ⟨hs, rfl⟩
  | cons e rest ih =>
    intro s hs
    simp only [List.foldl_cons]
    have hp := wsStep_preserves s e hs
    have h2 := ih (wsStep s e) hp.1
    exact ⟨h2.1, by rw [h2.2, hp.2]⟩

/-- **C9.** In every reachable state of `WebSocketManager`,
`reconnectAttempts ≤ maxReconnectAttempts` and
`maxReconnectAttempts = 5`: `scheduleReconnect` increments
`reconnectAttempts` by one and is reached from `onclose` only when
`reconnectAttempts < maxReconnectAttempts`, and every socket open resets
`reconnectAttempts` to 0. -/
theorem reconnectAttempts_bounded :
    (∀ es, (wsRun es).reconnectAttempts
        ≤ (wsRun es).maxReconnectAttempts) ∧
    (∀ es, (wsRun es).maxReconnectAttempts = 5) ∧
    (∀ s, (handleOpen s).reconnectAttempts = 0) ∧
    (∀ s, (scheduleReconnect s).1.reconnectAttempts
        = s.reconnectAttempts + 1) ∧
    (∀ s code, (handleClose s code).2 = true →
        s.reconnectAttempts < s.maxReconnectAttempts) := by
  refine ⟨fun es => (wsRun_foldl_inv es WSState.init (by decide)).1,
    fun es => (wsRun_foldl_inv es WSState.init (by decide)).2,
    fun s => rfl, fun s => rfl, ?_⟩
  intro s code h
  unfold handleClose at h
  dsimp only at h
  by_cases hcond : code ≠ 1000 ∧ s.reconnectAttempts < s.maxReconnectAttempts
  · exact hcond.2
  · rw [if_neg hcond] at h
    exact Bool.noConfusion h

theorem reconnectAttempts_bounded_witness :
    (wsRun [WSEvent.closeEv 1006, WSEvent.closeEv 1006]).reconnectAttempts
      ≤ (wsRun [WSEvent.closeEv 1006,
          WSEvent.closeEv 1006]).maxReconnectAttempts ∧
    WSState.init.reconnectAttempts < WSState.init.maxReconnectAttempts :=
  ⟨reconnectAttempts_bounded.1 [WSEvent.closeEv 1006, WSEvent.closeEv 1006],
   reconnectAttempts_bounded.2.2.2.2 WSState.init 1006 (by decide)⟩

theorem cancelRequest_abortControllers (st : RCState) (rid : String)
    (c : Controller) (hc : mapGet st.abortControllers rid = some c) :
    (cancelRequest st rid).1.abortControllers
      = mapDelete st.abortControllers rid := by
  simp only [cancelRequest, hc]
  exact (clearRequestTimeout_frame _ _).1

theorem cancelRequest_nodup (st : RCState) (rid : String)
    (h : (mapKeys st.abortControllers).Nodup) :
    (mapKeys (cancelRequest st rid).1.abortControllers).Nodup := by
  cases hc : mapGet st.abortControllers rid with
  | none =>
    rw [cancelRequest_not_found st rid hc]
    exact h
  | some c =>
    rw [cancelRequest_abortControllers st rid c hc]
    exact nodup_mapKeys_mapDelete _ _ h

theorem createAbortController_nodup (st : RCState) (rid : String)
    (h : (mapKeys st.abortControllers).Nodup) :
    (mapKeys (createAbortController st rid).1.abortControllers).Nodup := by
  have heq : (createAbortController st rid).1.abortControllers
      = mapSet (cancelRequest st rid).1.abortControllers rid
          ⟨(cancelRequest st rid).1.nextCtrlId, false⟩ := by
    simp only [createAbortController]
  rw [heq]
  exact nodup_mapKeys_mapSet _ _ _ (cancelRequest_nodup st rid h)

theorem ccrSetup_abortControllers (st : RCState) (rid : String)
    (opts : CCROptions) :
    (createCancellableRequestSetup st rid opts).1.abortControllers
      = (createAbortController st rid).1.abortControllers := by
  simp only [createCancellableRequestSetup]
  by_cases ht : ccrTimeout opts > 0
  · rw [if_pos ht]
    exact setRequestTimeout_abortControllers (createAbortController st rid).1
      rid (ccrTimeout opts) opts.hasOnTimeout
  · rw [if_neg ht]
    rfl

/-- **C10.** At most one `AbortController` is registered per `requestId`:
`createAbortController(requestId)` first cancels (aborting) any controller
already registered under `requestId` and then installs the fresh one, and
every `RequestController` operation preserves uniqueness of the keys of the
`abortControllers` map. -/
theorem abortControllers_unique :
    (∀ st rid c, mapGet st.abortControllers rid = some c →
        c.ctrlId ∈ (createAbortController st rid).1.abortedLog) ∧
    (∀ st rid, mapGet (createAbortController st rid).1.abortControllers rid
        = some (createAbortController st rid).2) ∧
    (∀ st rid, (mapKeys st.abortControllers).Nodup →
        (mapKeys (createAbortController st rid).1.abortControllers).Nodup) ∧
    (∀ st rid, (mapKeys st.abortControllers).Nodup →
        (mapKeys (cancelRequest st rid).1.abortControllers).Nodup) ∧
    (∀ st rid ms b, (mapKeys st.abortControllers).Nodup →
        (mapKeys (setRequestTimeout st rid ms b).abortControllers).Nodup) ∧
    (∀ st rid info, (mapKeys st.abortControllers).Nodup →
        (mapKeys (markRequestActive st rid info).abortControllers).Nodup) ∧
    (∀ st rid, (mapKeys st.abortControllers).Nodup →
        (mapKeys (markRequestCompleted st rid).abortControllers).Nodup) ∧
    (∀ st, (mapKeys (cancelAllRequests st).abortControllers).Nodup) ∧
    (∀ st rid opts, (mapKeys st.abortControllers).Nodup →
        (mapKeys (createCancellableRequestSetup st rid
            opts).1.abortControllers).Nodup) ∧
    (∀ st rid b, (mapKeys st.abortControllers).Nodup →
        (mapKeys (fireTimeout st rid b).1.abortControllers).Nodup) ∧
    (∀ st, (mapKeys (cleanup st).abortControllers).Nodup) := by
  refine ⟨?_, ?_, createAbortController_nodup, cancelRequest_nodup, ?_, ?_,
    ?_, ?_, ?_, ?_, ?_⟩
  · intro st rid c hc
    have heq : (createAbortController st rid).1.abortedLog
        = (cancelRequest st rid).1.abortedLog := rfl
    rw [heq, cancelRequest_abortedLog st rid c hc]
    simp
  · intro st rid
    exact createAbortController_get st rid
  · intro st rid ms b h
    rw [setRequestTimeout_abortControllers]
    exact h
  · intro st rid info h
    exact h
  · intro st rid h
    have heq : (markRequestCompleted st rid).abortControllers
        = mapDelete st.abortControllers rid := by
      simp only [markRequestCompleted]
      exact (clearRequestTimeout_frame _ _).1
    rw [heq]
    exact nodup_mapKeys_mapDelete _ _ h
  · intro st
    simp [cancelAllRequests, mapKeys]
  · intro st rid opts h
    rw [ccrSetup_abortControllers]
    exact createAbortController_nodup st rid h
  · intro st rid b h
    exact cancelRequest_nodup st rid h
  · intro st
    simp [cleanup, cancelAllRequests, mapKeys]

theorem abortControllers_unique_witness :
    (5 : Nat) ∈ (createAbortController
      { RCState.init with abortControllers := [("r", ⟨5, false⟩)] }
      "r").1.abortedLog ∧
    (mapKeys (createAbortController
        RCState.init "r").1.abortControllers).Nodup :=
  ⟨abortControllers_unique.1
      { RCState.init with abortControllers := [("r", ⟨5, false⟩)] } "r"
      ⟨5, false⟩ rfl,
   abortControllers_unique.2.2.1 RCState.init "r" (by decide)⟩

end SessionChecker
